import Mathlib

/- Verification development for the Shopify-to-Klaviyo order sync
   (src/homework.py, class ShopifyApp).

   The data-transformation pipeline is embedded shallowly:
   - Python dict records become Lean structures; an optional field (a key
     that may be absent from the JSON object) becomes an `Option`.
   - Python `None` is `Option.none`; a Python value that may be `None` or a
     string is an `Option String`.
   - HTTP fetches (`get_collection_name`, `get_product` bodies) are modelled
     by oracle functions `Int → Option String` / `Int → ItemInfo` standing
     for the deterministic JSON responses of the upstream API for one run;
     transport, auth and encoding are out of scope per the spec.
   - A Python function that can raise is embedded with `Option`/`Except`
     (`none` / `.error` marking the raise).
   - The `functools.lru_cache(maxsize=512)` decorator is embedded as an
     explicit association-list cache with move-to-front on hit and
     truncation to the capacity on miss, threaded through `lruGet`.
-/

set_option autoImplicit false
set_option linter.unusedVariables false

namespace Shopify

/-- One entry of `order['line_items']`. -/
structure LineItem where
  id : Int
  product_id : Int
  sku : String
  name : String
  quantity : Int
  price : String
  vendor : String
  deriving DecidableEq

/-- The `customer['default_address']` sub-object; every field may be absent. -/
structure DefaultAddress where
  address1 : Option String
  address2 : Option String
  city : Option String
  zip : Option String
  province : Option String
  country : Option String
  deriving DecidableEq

/-- The `order['customer']` sub-object. `email` is accessed with
`customer['email']` in the source, so it is required. -/
structure Customer where
  email : String
  first_name : Option String
  last_name : Option String
  phone : Option String
  default_address : Option DefaultAddress
  deriving DecidableEq

/-- The `order['billing_address']` / `order['shipping_address']` sub-object;
each field may be absent from the JSON object. -/
structure Address where
  first_name : Option String
  last_name : Option String
  company : Option String
  address1 : Option String
  address2 : Option String
  city : Option String
  province : Option String
  province_code : Option String
  country : Option String
  country_code : Option String
  zip : Option String
  phone : Option String
  deriving DecidableEq

/-- One entry of `order['discount_codes']`. -/
structure DiscountCode where
  code : String
  deriving DecidableEq

/-- The parsed form of `order['created_at']`: an ISO-8601 timestamp with a
numeric UTC-offset suffix, exactly the shape accepted by
`datetime.strptime(_, '%Y-%m-%dT%H:%M:%S%z')` in `create_timestamp`.
`tz_minutes` is the signed offset of the `%z` suffix in minutes. -/
structure CreatedAt where
  year : Int
  month : Int
  day : Int
  hour : Int
  minute : Int
  second : Int
  tz_minutes : Int
  deriving DecidableEq

/-- A raw Shopify order record, restricted to the fields the pipeline reads. -/
structure Order where
  id : Int
  total_price : String
  total_discounts : String
  created_at : CreatedAt
  customer : Customer
  billing_address : Option Address
  shipping_address : Option Address
  discount_codes : List DiscountCode
  line_items : List LineItem
  deriving DecidableEq

/-- One row of the `/collects.json` response: a (product, collection) pairing. -/
structure Collect where
  product_id : Int
  collection_id : Int
  deriving DecidableEq

/-- One entry of a product detail's `images` list. -/
structure Image where
  src : Option String
  deriving DecidableEq

/-- The product detail object returned by `get_product`
(`.get('product', {})` of the `/products/<id>.json` response); a product with
no upstream record is the empty object, i.e. both fields absent. -/
structure ItemInfo where
  images : Option (List Image)
  handle : Option String
  deriving DecidableEq

/-- The 12-field address record built by `create_billing_address` and
`create_shipping_address`. -/
structure AddressInfo where
  FirstName : String
  LastName : String
  Company : String
  Address1 : String
  Address2 : String
  City : String
  Region : String
  RegionCode : String
  Country : String
  CountryCode : String
  Zip : String
  Phone : String
  deriving DecidableEq

/-- A Python dict with string keys and string-or-None values, in insertion
order, as used for `customer_properties`. -/
abbrev Dict := List (String × Option String)

/-- Embedding of Python `d[k] = v` / one step of `dict.update`: replace the
value in place if the key is present, else append the pair. -/
def dictSet (d : Dict) (k : String) (v : Option String) : Dict :=
  if d.any (fun p => p.1 == k) then
    d.map (fun p => if p.1 == k then (k, v) else p)
  else
    d ++ [(k, v)]

/-- Embedding of Python `d.update(adds)` where `adds` is given in its
insertion order. -/
def dictUpdate (d : Dict) (adds : Dict) : Dict :=
  adds.foldl (fun acc kv => dictSet acc kv.1 kv.2) d

/-- Embedding of Python `d.get(k)`: `some v` when the key is present with
value `v`, `none` when the key is absent. -/
def dictGet (d : Dict) (k : String) : Option (Option String) :=
  (d.find? (fun p => p.1 == k)).map (·.2)

/-- Embedding of Python `str(x)` on a string-or-None value: `str(None)` is
the literal text `"None"`. -/
def pyStr : Option String → String
  | none => "None"
  | some s => s

/-- Source: `create_customer_properties` -- the base customer block of the
`Ordered Product` event. -/
def create_customer_properties (order : Order) : Dict :=
  [("$email", some order.customer.email),
   ("$first_name", order.customer.first_name),
   ("$last_name", order.customer.last_name)]

/-- Source: `update_customer_properties` -- extends `customer_properties`
with `$phone_number` (from `customer.get('phone')`) and the address fields
(from `customer.get('default_address', {})`). -/
def update_customer_properties (order : Order) (customer_properties : Dict) : Dict :=
  dictUpdate customer_properties
    [("$phone_number", order.customer.phone),
     ("$address1", order.customer.default_address.bind (·.address1)),
     ("$address2", order.customer.default_address.bind (·.address2)),
     ("$city", order.customer.default_address.bind (·.city)),
     ("$zip", order.customer.default_address.bind (·.zip)),
     ("$region", order.customer.default_address.bind (·.province)),
     ("$country", order.customer.default_address.bind (·.country))]

/-- Embedding of `order.get('billing_address', {}).get(field, "")`: the empty
string when the sub-object or the sub-field is absent. -/
def addrGet (sub : Option Address) (f : Address → Option String) : String :=
  match sub with
  | none => ""
  | some a => (f a).getD ""

/-- Source: `create_billing_address`. -/
def create_billing_address (order : Order) : AddressInfo :=
  let order_billing := order.billing_address
  { FirstName := addrGet order_billing (·.first_name)
    LastName := addrGet order_billing (·.last_name)
    Company := addrGet order_billing (·.company)
    Address1 := addrGet order_billing (·.address1)
    Address2 := addrGet order_billing (·.address2)
    City := addrGet order_billing (·.city)
    Region := addrGet order_billing (·.province)
    RegionCode := addrGet order_billing (·.province_code)
    Country := addrGet order_billing (·.country)
    CountryCode := addrGet order_billing (·.country_code)
    Zip := addrGet order_billing (·.zip)
    Phone := addrGet order_billing (·.phone) }

/-- Source: `create_shipping_address`. -/
def create_shipping_address (order : Order) : AddressInfo :=
  let order_shipping := order.shipping_address
  { FirstName := addrGet order_shipping (·.first_name)
    LastName := addrGet order_shipping (·.last_name)
    Company := addrGet order_shipping (·.company)
    Address1 := addrGet order_shipping (·.address1)
    Address2 := addrGet order_shipping (·.address2)
    City := addrGet order_shipping (·.city)
    Region := addrGet order_shipping (·.province)
    RegionCode := addrGet order_shipping (·.province_code)
    Country := addrGet order_shipping (·.country)
    CountryCode := addrGet order_shipping (·.country_code)
    Zip := addrGet order_shipping (·.zip)
    Phone := addrGet order_shipping (·.phone) }

/-- Days from 1970-01-01 of a proleptic-Gregorian civil date, the day count
underlying `datetime.timestamp()` for an offset-aware datetime. -/
def daysFromCivil (y m d : Int) : Int :=
  let y2 := if m ≤ 2 then y - 1 else y
  let era := (if 0 ≤ y2 then y2 else y2 - 399) / 400
  let yoe := y2 - era * 400
  let mp := (m + 9) % 12
  let doy := (153 * mp + 2) / 5 + d - 1
  let doe := yoe * 365 + yoe / 4 - yoe / 100 + doy
  era * 146097 + doe - 719468

/-- Source: `create_timestamp` --
`int(datetime.strptime(order['created_at'], '%Y-%m-%dT%H:%M:%S%z').timestamp())`.
The parsed datetime has whole seconds and a fixed numeric offset, so the
float-to-int truncation is exact and the result is the integer Unix epoch
seconds of the civil time minus its UTC offset. -/
def create_timestamp (order : Order) : Int :=
  let c := order.created_at
  daysFromCivil c.year c.month c.day * 86400
    + c.hour * 3600 + c.minute * 60 + c.second - c.tz_minutes * 60

/-- Source: `create_discount_codes_list` -- appends each `code['code']` in
input order, duplicates kept. -/
def create_discount_codes_list (order : Order) : List String :=
  order.discount_codes.foldl (fun discounts code => discounts ++ [code.code]) []

/-- Source: `create_collect_ids_list` -- for every line item, scan the full
collects list and append the `collection_id` of every record with the same
`product_id`. -/
def create_collect_ids_list (order : Order) (collections : List Collect) : List Int :=
  order.line_items.foldl
    (fun collect_ids item =>
      collections.foldl
        (fun collect_ids collection =>
          if item.product_id = collection.product_id then
            collect_ids ++ [collection.collection_id]
          else collect_ids)
        collect_ids)
    []

/-- Loop body of `create_categories_list`: resolve one `collect_id` via the
collection-name lookup and append the name when it is truthy (not None, not
the empty string) and not already present. -/
def catStep (nameOf : Int → Option String) (categories : List String) (collect_id : Int) :
    List String :=
  match nameOf collect_id with
  | some collection_name =>
    if collection_name ≠ "" ∧ collection_name ∉ categories then
      categories ++ [collection_name]
    else categories
  | none => categories

/-- Source: `create_categories_list` -- iterates over the line items and, for
each, over `collect_ids`, resolving names through `get_collection_name`
(modelled by the oracle `nameOf`; the cache does not change returned values,
only fetch counts, see the lru development below). -/
def create_categories_list (nameOf : Int → Option String) (order : Order)
    (collect_ids : List Int) : List String :=
  order.line_items.foldl
    (fun categories _ => collect_ids.foldl (catStep nameOf) categories)
    []

/-- Source: `create_item_names_list` -- one name per line item, input order,
no dedup. -/
def create_item_names_list (order : Order) : List String :=
  order.line_items.foldl (fun item_names item => item_names ++ [item.name]) []

/-- Source: `create_vendor_list` -- vendor of each line item, first
occurrence kept, duplicates ignored. -/
def create_vendor_list (order : Order) : List String :=
  order.line_items.foldl
    (fun brands item => if item.vendor ∈ brands then brands else brands ++ [item.vendor])
    []

/-- Source: `create_image_url` --
`item_info.get('images', [{}])[0].get('src')` inside a try/except that
swallows `IndexError` and keeps the initial `first_image = ""`.
A missing `images` key defaults to `[{}]`, whose first entry has no `src`,
so the result is Python `None`; an empty `images` list raises `IndexError`,
caught, giving `""`. -/
def create_image_url (item_info : ItemInfo) : Option String :=
  match (item_info.images.getD [{ src := none }]).get? 0 with
  | none => some ""
  | some img => img.src

/-- Source: `create_product_url` --
`store_url + '/products/' + str(item_info.get('handle'))`. -/
def create_product_url (store_url : String) (item_info : ItemInfo) : String :=
  store_url ++ "/products/" ++ pyStr item_info.handle

/-- One entry of the `items` array of the order properties. -/
structure ItemEntry where
  ProductID : Int
  SKU : String
  ProductName : String
  Quantity : Int
  ItemPrice : String
  RowTotal : String
  ProductURL : String
  ImageURL : Option String
  Categories : List String
  Brand : String
  deriving DecidableEq

/-- Source: `create_items_array` -- one entry per line item, all sharing the
`product_url` / `first_image` arguments of the call. -/
def create_items_array (order : Order) (product_url : String) (first_image : Option String)
    (categories : List String) : List ItemEntry :=
  order.line_items.foldl
    (fun items item =>
      items ++ [{ ProductID := item.product_id
                  SKU := item.sku
                  ProductName := item.name
                  Quantity := item.quantity
                  ItemPrice := item.price
                  RowTotal := item.price
                  ProductURL := product_url
                  ImageURL := first_image
                  Categories := categories
                  Brand := item.vendor }])
    []

/-- The `Ordered Product` properties record. -/
structure ProductProperties where
  event_id : Int
  value : String
  ProductID : Int
  SKU : String
  ProductName : String
  Quantity : Int
  ProductURL : String
  ImageURL : Option String
  ProductCategories : List String
  ProductBrand : String
  deriving DecidableEq

/-- Source: `create_product_properties` -- the loop rebinds
`product_properties` on every iteration and returns it after the loop, so
only the record of the last line item survives; with no line items the
variable is never bound and the `return` raises `UnboundLocalError`,
modelled as `none`. -/
def create_product_properties (order : Order) (product_url : String)
    (first_image : Option String) (categories : List String) : Option ProductProperties :=
  order.line_items.foldl
    (fun _ item =>
      some { event_id := item.id
             value := item.price
             ProductID := item.product_id
             SKU := item.sku
             ProductName := item.name
             Quantity := item.quantity
             ProductURL := product_url
             ImageURL := first_image
             ProductCategories := categories
             ProductBrand := item.vendor })
    none

/-- The `Placed Order` properties record. -/
structure OrderProperties where
  event_id : Int
  value : String
  Categories : List String
  ItemNames : List String
  Brands : List String
  DiscountCode : List String
  DiscountValue : String
  Items : List ItemEntry
  billing_address : AddressInfo
  shipping_address : AddressInfo
  deriving DecidableEq

/-- Source: `create_order_properties`. -/
def create_order_properties (order : Order) (categories item_names brands discounts : List String)
    (items : List ItemEntry) (billing shipping : AddressInfo) : OrderProperties :=
  { event_id := order.id
    value := order.total_price
    Categories := categories
    ItemNames := item_names
    Brands := brands
    DiscountCode := discounts
    DiscountValue := order.total_discounts
    Items := items
    billing_address := billing
    shipping_address := shipping }

/-- The properties part of an event payload. -/
inductive PayloadProps where
  | product (p : ProductProperties)
  | order (p : OrderProperties)
  deriving DecidableEq

/-- One tracking-call payload (`token` is `self.company`). -/
structure Payload where
  token : String
  event : String
  customer_properties : Dict
  properties : PayloadProps
  time : Int
  deriving DecidableEq

/-- Source: `create_product_payload`. -/
def create_product_payload (company : String) (order : Order) (customer_properties : Dict)
    (product_properties : ProductProperties) (timestamp : Int) : Payload :=
  { token := company
    event := "Ordered Product"
    customer_properties := customer_properties
    properties := PayloadProps.product product_properties
    time := timestamp }

/-- Source: `create_order_payload` -- the order event's customer block is the
updated (address-extended) variant. -/
def create_order_payload (company : String) (order : Order) (customer_properties : Dict)
    (order_properties : OrderProperties) (timestamp : Int) : Payload :=
  { token := company
    event := "Placed Order"
    customer_properties := update_customer_properties order customer_properties
    properties := PayloadProps.order order_properties
    time := timestamp }

/-- Embedding of one call through a `functools.lru_cache(maxsize=cap)`
wrapper around the deterministic fetch `oracle`. The cache is an association
list, most recently used first. A hit moves the entry to the front and does
not fetch; a miss fetches, inserts at the front and drops the least recently
used entry beyond the capacity. The third component reports whether the
external fetch was performed. -/
def lruGet {α : Type} (cap : Nat) (oracle : Int → α) (cache : List (Int × α)) (k : Int) :
    α × List (Int × α) × Bool :=
  match cache.find? (fun p => p.1 == k) with
  | some p => (p.2, (k, p.2) :: cache.filter (fun q => q.1 != k), false)
  | none => (oracle k, ((k, oracle k) :: cache).take cap, true)

/-- A run of successive calls through one `lruGet` cache: returns the final
cache, the keys that caused an external fetch (in order), and the returned
values (one per call). -/
def lruRun {α : Type} (cap : Nat) (oracle : Int → α) :
    List (Int × α) → List Int → List (Int × α) × List Int × List α
  | cache, [] => (cache, [], [])
  | cache, k :: ks =>
    let r := lruGet cap oracle cache k
    let rest := lruRun cap oracle r.2.1 ks
    (rest.1, (if r.2.2 then [k] else []) ++ rest.2.1, r.1 :: rest.2.2)

/-- Source: `get_collection_name` -- `@lru_cache(maxsize=512)` around the
`/collections/<id>.json` title fetch (which may be None); `fetch_title`
stands for the fetch body under a fixed `store_url`. -/
def get_collection_name (fetch_title : Int → Option String)
    (cache : List (Int × Option String)) (collect_id : Int) :
    Option String × List (Int × Option String) × Bool :=
  lruGet 512 fetch_title cache collect_id

/-- Source: `get_product` -- `@lru_cache(maxsize=512)` around the
`/products/<id>.json` product fetch (`{}` when absent); `fetch_product`
stands for the fetch body under a fixed `store_url`. -/
def get_product (fetch_product : Int → ItemInfo)
    (cache : List (Int × ItemInfo)) (product_id : Int) :
    ItemInfo × List (Int × ItemInfo) × Bool :=
  lruGet 512 fetch_product cache product_id

/-- A run of `get_collection_name` calls against one cache. -/
def collection_name_run (fetch_title : Int → Option String) :
    List (Int × Option String) → List Int →
      List (Int × Option String) × List Int × List (Option String)
  | cache, [] => (cache, [], [])
  | cache, k :: ks =>
    let r := get_collection_name fetch_title cache k
    let rest := collection_name_run fetch_title r.2.1 ks
    (rest.1, (if r.2.2 then [k] else []) ++ rest.2.1, r.1 :: rest.2.2)

/-- A run of `get_product` calls against one cache. -/
def product_run (fetch_product : Int → ItemInfo) :
    List (Int × ItemInfo) → List Int →
      List (Int × ItemInfo) × List Int × List ItemInfo
  | cache, [] => (cache, [], [])
  | cache, k :: ks =>
    let r := get_product fetch_product cache k
    let rest := product_run fetch_product r.2.1 ks
    (rest.1, (if r.2.2 then [k] else []) ++ rest.2.1, r.1 :: rest.2.2)

/-- The function-local variables of the per-order loop of
`historical_orders_sync` / `periodic_orders_sync` that are bound only inside
the per-line-item loop and read after it (`item_names`, `brands`, `items`).
They persist across loop iterations of the same run; `none` means the name
is not yet bound (reading it raises `NameError`). -/
structure SyncState where
  item_names? : Option (List String)
  brands? : Option (List String)
  items? : Option (List ItemEntry)
  deriving DecidableEq

/-- The per-line-item loop body of the sync drivers: fetch the product
detail (`productOf` is the deterministic fetch; the lru cache does not
change returned values), derive the per-item fields, build
`product_properties` via `create_product_properties`, and emit one
`Ordered Product` payload. Returns the loop variables left behind and the
emitted payloads in order. -/
def itemLoop (company store_url : String) (productOf : Int → ItemInfo) (order : Order)
    (categories : List String) (customer_properties : Dict) (timestamp : Int) :
    SyncState → List LineItem → Except String (SyncState × List Payload)
  | st, [] => Except.ok (st, [])
  | _st, item :: rest =>
    let item_info := productOf item.product_id
    let item_names := create_item_names_list order
    let brands := create_vendor_list order
    let first_image := create_image_url item_info
    let product_url := create_product_url store_url item_info
    let items := create_items_array order product_url first_image categories
    match create_product_properties order product_url first_image categories with
    | none => Except.error "UnboundLocalError"
    | some product_properties =>
      match itemLoop company store_url productOf order categories customer_properties timestamp
          { item_names? := some item_names, brands? := some brands, items? := some items }
          rest with
      | Except.error e => Except.error e
      | Except.ok (st', ps) =>
        Except.ok (st',
          create_product_payload company order customer_properties product_properties timestamp
            :: ps)

/-- The per-order body shared by `historical_orders_sync` and
`periodic_orders_sync`: derive the order-level fields, run the per-item loop,
then assemble and emit the `Placed Order` payload from the loop variables
`item_names`, `brands`, `items` (a `NameError` if none of them was ever
bound in this run). -/
def processOrder (company store_url : String) (nameOf : Int → Option String)
    (productOf : Int → ItemInfo) (collections : List Collect) (st : SyncState) (order : Order) :
    Except String (SyncState × List Payload) :=
  let customer_properties := create_customer_properties order
  let billing := create_billing_address order
  let shipping := create_shipping_address order
  let discounts := create_discount_codes_list order
  let timestamp := create_timestamp order
  let collect_ids := create_collect_ids_list order collections
  let categories := create_categories_list nameOf order collect_ids
  match itemLoop company store_url productOf order categories customer_properties timestamp
      st order.line_items with
  | Except.error e => Except.error e
  | Except.ok (st', ps) =>
    match st'.item_names?, st'.brands?, st'.items? with
    | some item_names, some brands, some items =>
      let order_properties :=
        create_order_properties order categories item_names brands discounts items
          billing shipping
      Except.ok (st',
        ps ++ [create_order_payload company order customer_properties order_properties timestamp])
    | _, _, _ => Except.error "NameError"

/-- The order loop of `historical_orders_sync`, threading the function-local
loop variables across orders. -/
def ordersLoop (company store_url : String) (nameOf : Int → Option String)
    (productOf : Int → ItemInfo) (collections : List Collect) :
    SyncState → List Order → Except String (List Payload)
  | _, [] => Except.ok []
  | st, o :: rest =>
    match processOrder company store_url nameOf productOf collections st o with
    | Except.error e => Except.error e
    | Except.ok (st', ps) =>
      match ordersLoop company store_url nameOf productOf collections st' rest with
      | Except.error e => Except.error e
      | Except.ok ps' => Except.ok (ps ++ ps')

/-- Source: `historical_orders_sync`, given the already-fetched order and
collects lists (transport is out of scope); returns every emitted payload in
emission order, or the error that aborted the run. -/
def historical_orders_sync (company store_url : String) (nameOf : Int → Option String)
    (productOf : Int → ItemInfo) (orders : List Order) (collections : List Collect) :
    Except String (List Payload) :=
  ordersLoop company store_url nameOf productOf collections
    { item_names? := none, brands? := none, items? := none } orders

/-- The end-to-end scenario order of the spec: one line item, minimal
customer, no addresses, no discounts, created 2020-01-01T00:00:00+00:00. -/
def exOrder : Order :=
  { id := 1
    total_price := "10.00"
    total_discounts := "0.00"
    created_at := { year := 2020, month := 1, day := 1, hour := 0, minute := 0, second := 0,
                    tz_minutes := 0 }
    customer := { email := "a@b.com", first_name := none, last_name := none, phone := none,
                  default_address := none }
    billing_address := none
    shipping_address := none
    discount_codes := []
    line_items := [{ id := 11, product_id := 100, sku := "S1", name := "Widget", quantity := 1,
                     price := "10.00", vendor := "Acme" }] }

/-- An order whose `line_items` list is empty. -/
def emptyOrder : Order :=
  { exOrder with id := 2, line_items := [] }

/-- An order with two line items referring to two different products. -/
def twoOrder : Order :=
  { exOrder with
    id := 3
    line_items := [{ id := 11, product_id := 100, sku := "S1", name := "Widget", quantity := 1,
                     price := "10.00", vendor := "Acme" },
                   { id := 12, product_id := 200, sku := "S2", name := "Gadget", quantity := 2,
                     price := "4.00", vendor := "Bolt" }] }

/-- An order with a duplicate discount code and a duplicate vendor. -/
def dupOrder : Order :=
  { exOrder with
    id := 4
    discount_codes := [{ code := "SAVE10" }, { code := "SAVE10" }]
    line_items := [{ id := 11, product_id := 100, sku := "S1", name := "Widget", quantity := 1,
                     price := "10.00", vendor := "Acme" },
                   { id := 12, product_id := 200, sku := "S2", name := "Gadget", quantity := 2,
                     price := "4.00", vendor := "Bolt" },
                   { id := 13, product_id := 100, sku := "S1", name := "Widget", quantity := 3,
                     price := "10.00", vendor := "Acme" }] }

/-- An order whose customer has a phone number but no default address. -/
def phoneOrder : Order :=
  { exOrder with
    id := 5
    customer := { email := "a@b.com", first_name := none, last_name := none,
                  phone := some "123", default_address := none } }

/-- A concrete product-detail fetch: product 100 has one image and handle
`widget-a`; product 200 has an empty images list and handle `widget-b`;
anything else has no upstream record. -/
def exProductOracle : Int → ItemInfo := fun product_id =>
  if product_id = 100 then
    { images := some [{ src := some "http://cdn/a.png" }], handle := some "widget-a" }
  else if product_id = 200 then
    { images := some [], handle := some "widget-b" }
  else
    { images := none, handle := none }

/-- A concrete collection-name fetch: ids 1 and 2 both resolve to `Shoes`,
id 3 to `Hats`, anything else to None. -/
def exNameOracle : Int → Option String := fun collect_id =>
  if collect_id = 1 then some "Shoes"
  else if collect_id = 2 then some "Shoes"
  else if collect_id = 3 then some "Hats"
  else none

/-- The all-empty 12-field address record. -/
def blankAddressInfo : AddressInfo :=
  { FirstName := "", LastName := "", Company := "", Address1 := "", Address2 := "",
    City := "", Region := "", RegionCode := "", Country := "", CountryCode := "",
    Zip := "", Phone := "" }

/-- The concrete per-order run of the end-to-end scenario order. -/
def exRun : Except String (SyncState × List Payload) :=
  processOrder "tok" "u" exNameOracle exProductOracle []
    { item_names? := none, brands? := none, items? := none } exOrder

/-- The final loop state of `exRun`. -/
def exRunState : SyncState :=
  match exRun with
  | Except.ok (st, _) => st
  | Except.error _ => { item_names? := none, brands? := none, items? := none }

/-- The payloads emitted by `exRun`. -/
def exRunPayloads : List Payload :=
  match exRun with
  | Except.ok (_, ps) => ps
  | Except.error _ => []

/-- The concrete per-order run of the two-line-item order. -/
def twoRun : Except String (SyncState × List Payload) :=
  processOrder "tok" "https://s" exNameOracle exProductOracle []
    { item_names? := none, brands? := none, items? := none } twoOrder

/-- The final loop state of `twoRun`. -/
def twoRunState : SyncState :=
  match twoRun with
  | Except.ok (st, _) => st
  | Except.error _ => { item_names? := none, brands? := none, items? := none }

/-- The payloads emitted by `twoRun`. -/
def twoRunPayloads : List Payload :=
  match twoRun with
  | Except.ok (_, ps) => ps
  | Except.error _ => []

/-- The product-properties record `create_product_properties` yields for
`twoOrder` with url `u` and no image: every item field comes from the
second (last) line item. -/
def twoPP : ProductProperties :=
  { event_id := 12, value := "4.00", ProductID := 200, SKU := "S2", ProductName := "Gadget",
    Quantity := 2, ProductURL := "u", ImageURL := none, ProductCategories := [],
    ProductBrand := "Bolt" }

/-- The historical run over a one-item order followed by an empty order. -/
def staleRun : Except String (List Payload) :=
  historical_orders_sync "tok" "u" exNameOracle exProductOracle [exOrder, emptyOrder] []

/-- The payloads emitted by `staleRun`. -/
def staleRunPayloads : List Payload :=
  match staleRun with
  | Except.ok ps => ps
  | Except.error _ => []

/-- The `event_id` of an order payload, if `p` is one. -/
def orderEventIdOf (p : Payload) : Option Int :=
  match p.properties with
  | PayloadProps.order op => some op.event_id
  | _ => none

/-- The `ItemNames` of an order payload, if `p` is one. -/
def orderItemNamesOf (p : Payload) : Option (List String) :=
  match p.properties with
  | PayloadProps.order op => some op.ItemNames
  | _ => none

/-- The keys of `ks` not yet in `seen`, first occurrences only: the keys an
lru-cached fetch run that starts with `seen` already cached would fetch,
were no entry ever evicted. -/
def newFirsts : List Int → List Int → List Int
  | [], _ => []
  | k :: ks, seen => if k ∈ seen then newFirsts ks seen else k :: newFirsts ks (k :: seen)

/-- A fetch oracle on which every collection lookup resolves to None. -/
def cexOracle : Int → Option String := fun _ => none

/-- 513 pairwise-distinct collection ids followed by the first id again. -/
def cexKeys : List Int := (List.range 513).map Int.ofNat ++ [0]

/-! Helper lemmas about the list folds of the field-derivation functions. -/

lemma foldl_append_map {α β : Type} (f : α → β) (l : List α) :
    ∀ acc : List β, List.foldl (fun r x => r ++ [f x]) acc l = acc ++ l.map f := by
  induction l with
  | nil => intro acc; simp
  | cons x xs ih => intro acc; simp [ih]

lemma create_discount_codes_list_eq_map (o : Order) :
    create_discount_codes_list o = o.discount_codes.map (·.code) := by
  unfold create_discount_codes_list
  rw [foldl_append_map (fun c : DiscountCode => c.code)]
  simp

lemma create_item_names_list_eq_map (o : Order) :
    create_item_names_list o = o.line_items.map (·.name) := by
  unfold create_item_names_list
  rw [foldl_append_map (fun i : LineItem => i.name)]
  simp

lemma vendorFold_mem (l : List LineItem) :
    ∀ (acc : List String) (v : String),
      v ∈ l.foldl
            (fun brands item =>
              if item.vendor ∈ brands then brands else brands ++ [item.vendor]) acc
        ↔ v ∈ acc ∨ v ∈ l.map (·.vendor) := by
  induction l with
  | nil => intro acc v; simp
  | cons i rest ih =>
    intro acc v
    rw [List.foldl_cons, ih]
    by_cases h : i.vendor ∈ acc
    · simp only [if_pos h, List.map_cons, List.mem_cons]
      constructor
      · rintro (hv | hv)
        exacts [Or.inl hv, Or.inr (Or.inr hv)]
      · rintro (hv | hv | hv)
        exacts [Or.inl hv, Or.inl (hv ▸ h), Or.inr hv]
    · simp only [if_neg h, List.mem_append, List.mem_singleton, List.map_cons, List.mem_cons]
      tauto

lemma vendorFold_nodup (l : List LineItem) :
    ∀ acc : List String, acc.Nodup →
      (l.foldl
        (fun brands item =>
          if item.vendor ∈ brands then brands else brands ++ [item.vendor]) acc).Nodup := by
  induction l with
  | nil => intro acc h; simpa using h
  | cons i rest ih =>
    intro acc h
    rw [List.foldl_cons]
    apply ih
    by_cases hv : i.vendor ∈ acc
    · simpa [if_pos hv] using h
    · rw [if_neg hv]
      simp [List.nodup_append, h, hv]

lemma catStep_mem (f : Int → Option String) (cats : List String) (cid : Int) (s : String) :
    s ∈ catStep f cats cid ↔ s ∈ cats ∨ (s ≠ "" ∧ f cid = some s) := by
  cases hf : f cid with
  | none => simp [catStep, hf]
  | some n =>
    simp only [catStep, hf]
    by_cases hn : n ≠ "" ∧ n ∉ cats
    · simp only [if_pos hn, List.mem_append, List.mem_singleton, Option.some.injEq]
      constructor
      · rintro (hs | hs)
        exacts [Or.inl hs, Or.inr ⟨hs ▸ hn.1, hs.symm⟩]
      · rintro (hs | ⟨_, hs⟩)
        exacts [Or.inl hs, Or.inr hs.symm]
    · rw [if_neg hn]
      push_neg at hn
      constructor
      · exact Or.inl
      · rintro (hs | ⟨hs1, hs2⟩)
        · exact hs
        · obtain rfl : n = s := Option.some.inj hs2
          exact hn hs1

lemma catStep_nodup (f : Int → Option String) (cats : List String) (cid : Int)
    (h : cats.Nodup) : (catStep f cats cid).Nodup := by
  cases hf : f cid with
  | none => simpa [catStep, hf] using h
  | some n =>
    simp only [catStep, hf]
    by_cases hn : n ≠ "" ∧ n ∉ cats
    · rw [if_pos hn]
      simp [List.nodup_append, h, hn.2]
    · rwa [if_neg hn]

lemma catFold_mem (f : Int → Option String) (ids : List Int) :
    ∀ (cats : List String) (s : String),
      s ∈ ids.foldl (catStep f) cats ↔ s ∈ cats ∨ (s ≠ "" ∧ ∃ cid ∈ ids, f cid = some s) := by
  induction ids with
  | nil => intro cats s; simp
  | cons cid rest ih =>
    intro cats s
    rw [List.foldl_cons, ih, catStep_mem]
    constructor
    · rintro ((hs | ⟨h1, h2⟩) | ⟨h1, cid', hm, he⟩)
      · exact Or.inl hs
      · exact Or.inr ⟨h1, cid, List.mem_cons_self cid rest, h2⟩
      · exact Or.inr ⟨h1, cid', List.mem_cons_of_mem cid hm, he⟩
    · rintro (hs | ⟨h1, cid', hm, he⟩)
      · exact Or.inl (Or.inl hs)
      · rcases List.mem_cons.mp hm with h | h
        · exact Or.inl (Or.inr ⟨h1, h ▸ he⟩)
        · exact Or.inr ⟨h1, cid', h, he⟩

lemma catFold_nodup (f : Int → Option String) (ids : List Int) :
    ∀ cats : List String, cats.Nodup → (ids.foldl (catStep f) cats).Nodup := by
  induction ids with
  | nil => intro cats h; simpa using h
  | cons cid rest ih =>
    intro cats h
    rw [List.foldl_cons]
    exact ih _ (catStep_nodup f cats cid h)

lemma catOuter_mem (f : Int → Option String) (ids : List Int) (items : List LineItem) :
    ∀ (acc : List String) (s : String),
      s ∈ items.foldl (fun categories _ => ids.foldl (catStep f) categories) acc
        ↔ s ∈ acc ∨ (items ≠ [] ∧ s ≠ "" ∧ ∃ cid ∈ ids, f cid = some s) := by
  induction items with
  | nil => intro acc s; simp
  | cons i rest ih =>
    intro acc s
    rw [List.foldl_cons, ih, catFold_mem]
    simp only [ne_eq, List.cons_ne_nil, not_false_eq_true, true_and]
    constructor
    · rintro ((hs | hv) | ⟨_, hv⟩)
      · exact Or.inl hs
      · exact Or.inr hv
      · exact Or.inr hv
    · rintro (hs | hv)
      · exact Or.inl (Or.inl hs)
      · exact Or.inl (Or.inr hv)

lemma catOuter_nodup (f : Int → Option String) (ids : List Int) (items : List LineItem) :
    ∀ acc : List String, acc.Nodup →
      (items.foldl (fun categories _ => ids.foldl (catStep f) categories) acc).Nodup := by
  induction items with
  | nil => intro acc h; simpa using h
  | cons i rest ih =>
    intro acc h
    rw [List.foldl_cons]
    exact ih _ (catFold_nodup f ids acc h)

/-- C3: for every order and collects list, the categories list built by
`create_categories_list` over any `collect_ids` list contains exactly the
non-empty resolved collection names of the candidate ids (and nothing when
the order has no line items), with no duplicate names; on resolved names
`Shoes, Shoes, Hats` it yields `[Shoes, Hats]`, first-discovery order. -/
theorem c3_categories_dedup :
    (∀ (f : Int → Option String) (o : Order) (ids : List Int),
        (create_categories_list f o ids).Nodup) ∧
    (∀ (f : Int → Option String) (o : Order) (ids : List Int) (s : String),
        s ∈ create_categories_list f o ids
          ↔ o.line_items ≠ [] ∧ s ≠ "" ∧ ∃ cid ∈ ids, f cid = some s) ∧
    create_categories_list exNameOracle exOrder [1, 2, 3] = ["Shoes", "Hats"] := by
  refine ⟨?_, ?_, by decide⟩
  · intro f o ids
    exact catOuter_nodup f ids o.line_items [] List.nodup_nil
  · intro f o ids s
    unfold create_categories_list
    rw [catOuter_mem]
    simp

/-- C6: discount codes and item names are plain per-entry maps (input order,
duplicates kept: `SAVE10` twice gives a length-2 list), while the vendor
list is deduplicated with first occurrences kept. -/
theorem c6_dedup_policy :
    (∀ o : Order, create_discount_codes_list o = o.discount_codes.map (·.code)) ∧
    (∀ o : Order, create_item_names_list o = o.line_items.map (·.name)) ∧
    (∀ o : Order, (create_vendor_list o).Nodup) ∧
    (∀ (o : Order) (v : String),
        v ∈ create_vendor_list o ↔ v ∈ o.line_items.map (·.vendor)) ∧
    create_discount_codes_list dupOrder = ["SAVE10", "SAVE10"] ∧
    create_item_names_list dupOrder = ["Widget", "Gadget", "Widget"] ∧
    create_vendor_list dupOrder = ["Acme", "Bolt"] := by
  refine ⟨create_discount_codes_list_eq_map, create_item_names_list_eq_map, ?_, ?_,
    by decide, by decide, by decide⟩
  · intro o
    exact vendorFold_nodup o.line_items [] List.nodup_nil
  · intro o v
    unfold create_vendor_list
    rw [vendorFold_mem]
    simp


/-- C7: `create_billing_address` and `create_shipping_address` apply the same
12-field mapping to `billing_address` resp. `shipping_address`; when the
sub-object is absent every field is the empty string, and when it is present
each field is the corresponding sub-field, defaulting to the empty string
when that sub-field is absent. -/
theorem c7_address_defaults :
    (∀ o : Order,
        create_billing_address o
          = create_shipping_address { o with shipping_address := o.billing_address }) ∧
    (∀ o : Order,
        create_shipping_address o
          = create_billing_address { o with billing_address := o.shipping_address }) ∧
    (∀ o : Order, create_billing_address { o with billing_address := none }
        = blankAddressInfo) ∧
    (∀ o : Order, create_shipping_address { o with shipping_address := none }
        = blankAddressInfo) ∧
    (∀ (o : Order) (a : Address),
        create_billing_address { o with billing_address := some a }
          = { FirstName := a.first_name.getD "", LastName := a.last_name.getD "",
              Company := a.company.getD "", Address1 := a.address1.getD "",
              Address2 := a.address2.getD "", City := a.city.getD "",
              Region := a.province.getD "", RegionCode := a.province_code.getD "",
              Country := a.country.getD "", CountryCode := a.country_code.getD "",
              Zip := a.zip.getD "", Phone := a.phone.getD "" }) ∧
    (∀ (o : Order) (a : Address),
        create_shipping_address { o with shipping_address := some a }
          = { FirstName := a.first_name.getD "", LastName := a.last_name.getD "",
              Company := a.company.getD "", Address1 := a.address1.getD "",
              Address2 := a.address2.getD "", City := a.city.getD "",
              Region := a.province.getD "", RegionCode := a.province_code.getD "",
              Country := a.country.getD "", CountryCode := a.country_code.getD "",
              Zip := a.zip.getD "", Phone := a.phone.getD "" }) := by
  exact ⟨fun o => rfl, fun o => rfl, fun o => rfl, fun o => rfl,
    fun o a => rfl, fun o a => rfl⟩

/-- C4 counterexample: a product detail whose `images` key is absent makes
`create_image_url` return Python `None` (the missing-key default `[{}]`
yields a first entry with no `src`), not the empty string the claim
states. -/
theorem c4_counterexample :
    create_image_url { images := none, handle := none } = none ∧
    create_image_url { images := none, handle := none } ≠ some "" := by
  decide

/-- C4 (amended): `create_image_url` never raises; it returns the `src` of
the first entry of a present non-empty `images` list (None when that entry
has no `src`), the empty string when `images` is present and empty (the
`IndexError` is swallowed), and None -- not the empty string -- when the
`images` key is missing. -/
theorem c4_image_url :
    (∀ h : Option String, create_image_url { images := none, handle := h } = none) ∧
    (∀ h : Option String, create_image_url { images := some [], handle := h } = some "") ∧
    (∀ (h : Option String) (s : String) (rest : List Image),
        create_image_url { images := some ({ src := some s } :: rest), handle := h }
          = some s) ∧
    (∀ (h : Option String) (rest : List Image),
        create_image_url { images := some ({ src := none } :: rest), handle := h }
          = none) := by
  exact ⟨fun h => rfl, fun h => rfl, fun h s rest => rfl, fun h rest => rfl⟩

/-- C9: the product URL is the base store URL plus `/products/` plus the
stringified handle; an absent handle embeds the literal text `None` (Python
`str(None)`), which is not the empty path segment. -/
theorem c9_product_url :
    (∀ (u : String) (im : Option (List Image)) (h0 : String),
        create_product_url u { images := im, handle := some h0 }
          = u ++ "/products/" ++ h0) ∧
    (∀ (u : String) (im : Option (List Image)),
        create_product_url u { images := im, handle := none }
          = u ++ "/products/" ++ "None") ∧
    pyStr none = "None" ∧ ("None" : String) ≠ "" := by
  exact ⟨fun u im h0 => rfl, fun u im => rfl, rfl, by decide⟩

/-- C8 counterexample: for a customer with a phone number but no default
address, the `Placed Order` customer block carries `$phone_number = "123"`
(sourced from `customer.phone`), not the null the claim's
"sourced from customer.default_address when present, else null" wording
demands. -/
theorem c8_counterexample :
    dictGet (update_customer_properties phoneOrder (create_customer_properties phoneOrder))
        "$phone_number" = some (some "123") ∧
    dictGet (update_customer_properties phoneOrder (create_customer_properties phoneOrder))
        "$phone_number" ≠ some none ∧
    phoneOrder.customer.default_address = none := by
  decide

/-- C8 (amended): the `Placed Order` customer block is exactly the
`Ordered Product` customer block (all three fields unchanged, hence a
superset) extended, in order, with `$phone_number` sourced from
`customer.phone` and the six address fields sourced from
`customer.default_address` when present, else null; and the order payload
applies exactly this extension to the customer block the product payload
carries. -/
theorem c8_customer_superset :
    (∀ o : Order,
        update_customer_properties o (create_customer_properties o)
          = create_customer_properties o ++
              [("$phone_number", o.customer.phone),
               ("$address1", o.customer.default_address.bind (·.address1)),
               ("$address2", o.customer.default_address.bind (·.address2)),
               ("$city", o.customer.default_address.bind (·.city)),
               ("$zip", o.customer.default_address.bind (·.zip)),
               ("$region", o.customer.default_address.bind (·.province)),
               ("$country", o.customer.default_address.bind (·.country))]) ∧
    (∀ (c : String) (o : Order) (cp : Dict) (op : OrderProperties)
        (pp : ProductProperties) (ts : Int),
        (create_order_payload c o cp op ts).customer_properties
          = update_customer_properties o
              ((create_product_payload c o cp pp ts).customer_properties)) := by
  constructor
  · intro o
    simp [update_customer_properties, create_customer_properties, dictUpdate, dictSet]
  · intro c o cp op pp ts
    rfl

/-! Characterizations of `create_product_properties` and the driver loops. -/

lemma create_product_properties_nil (o : Order) (h : o.line_items = []) (u : String)
    (i : Option String) (c : List String) : create_product_properties o u i c = none := by
  simp [create_product_properties, h]

lemma create_product_properties_concat (o : Order) (pre : List LineItem) (last : LineItem)
    (h : o.line_items = pre ++ [last]) (u : String) (i : Option String) (c : List String) :
    create_product_properties o u i c
      = some { event_id := last.id, value := last.price, ProductID := last.product_id,
               SKU := last.sku, ProductName := last.name, Quantity := last.quantity,
               ProductURL := u, ImageURL := i, ProductCategories := c,
               ProductBrand := last.vendor } := by
  unfold create_product_properties
  rw [h, List.foldl_append]
  rfl

lemma create_product_properties_some_inv (o : Order) (u : String) (i : Option String)
    (c : List String) (pp : ProductProperties)
    (h : create_product_properties o u i c = some pp) :
    ∃ last, o.line_items.getLast? = some last ∧
      pp = { event_id := last.id, value := last.price, ProductID := last.product_id,
             SKU := last.sku, ProductName := last.name, Quantity := last.quantity,
             ProductURL := u, ImageURL := i, ProductCategories := c,
             ProductBrand := last.vendor } := by
  rcases List.eq_nil_or_concat' o.line_items with hn | ⟨pre, last, hc⟩
  · rw [create_product_properties_nil o hn u i c] at h
    cases h
  · refine ⟨last, ?_, ?_⟩
    · rw [hc, List.getLast?_append_cons]
      rfl
    · rw [create_product_properties_concat o pre last hc u i c] at h
      exact (Option.some.inj h).symm

lemma itemLoop_mem (c u : String) (g : Int → ItemInfo) (o : Order) (cats : List String)
    (cp : Dict) (ts : Int) (items : List LineItem) :
    ∀ (st st' : SyncState) (ps : List Payload),
      itemLoop c u g o cats cp ts st items = Except.ok (st', ps) →
      ∀ p ∈ ps, ∃ item ∈ items, ∃ pp,
        create_product_properties o (create_product_url u (g item.product_id))
            (create_image_url (g item.product_id)) cats = some pp ∧
        p = create_product_payload c o cp pp ts := by
  induction items with
  | nil =>
    intro st st' ps h p hp
    simp only [itemLoop, Except.ok.injEq, Prod.mk.injEq] at h
    obtain ⟨rfl, rfl⟩ := h
    simp at hp
  | cons item rest ih =>
    intro st st' ps h p hp
    simp only [itemLoop] at h
    split at h
    · cases h
    · rename_i pp' hpp
      split at h
      · cases h
      · rename_i res st2 ps2 hrec
        simp only [Except.ok.injEq, Prod.mk.injEq] at h
        obtain ⟨rfl, rfl⟩ := h
        rcases List.mem_cons.mp hp with rfl | hp'
        · exact ⟨item, List.mem_cons_self item rest, pp', hpp, rfl⟩
        · obtain ⟨item', hmem, pp'', hppeq, hpeq⟩ := ih _ _ _ hrec p hp'
          exact ⟨item', List.mem_cons_of_mem item hmem, pp'', hppeq, hpeq⟩

lemma processOrder_shape (c u : String) (f : Int → Option String) (g : Int → ItemInfo)
    (cols : List Collect) (st : SyncState) (o : Order) (st' : SyncState) (ps : List Payload)
    (h : processOrder c u f g cols st o = Except.ok (st', ps)) :
    ∃ ps0 op,
      itemLoop c u g o (create_categories_list f o (create_collect_ids_list o cols))
          (create_customer_properties o) (create_timestamp o) st o.line_items
        = Except.ok (st', ps0) ∧
      ps = ps0 ++
        [create_order_payload c o (create_customer_properties o) op (create_timestamp o)] := by
  simp only [processOrder] at h
  split at h
  · cases h
  · rename_i res st2 ps2 hloop
    split at h
    · rename_i item_names brands items hin hbr hit
      simp only [Except.ok.injEq, Prod.mk.injEq] at h
      obtain ⟨rfl, rfl⟩ := h
      exact ⟨ps2, _, hloop, rfl⟩
    · cases h

/-- C2: every payload emitted for an order (the per-line-item product
payloads and the order payload) carries the same `time`, namely
`create_timestamp` of that order -- the integer Unix-epoch-seconds
conversion of its `created_at`; for `2020-01-01T00:00:00+00:00` that value
is 1577836800. -/
theorem c2_payload_time :
    (∀ (c u : String) (f : Int → Option String) (g : Int → ItemInfo) (cols : List Collect)
        (st : SyncState) (o : Order) (st' : SyncState) (ps : List Payload),
        processOrder c u f g cols st o = Except.ok (st', ps) →
        ∀ p ∈ ps, p.time = create_timestamp o) ∧
    create_timestamp exOrder = 1577836800 := by
  constructor
  · intro c u f g cols st o st' ps h p hp
    obtain ⟨ps0, op, hloop, hps⟩ := processOrder_shape c u f g cols st o st' ps h
    subst hps
    rcases List.mem_append.mp hp with hp0 | hp1
    · obtain ⟨item, -, pp, -, rfl⟩ := itemLoop_mem c u g o _ _ _ o.line_items _ _ _ hloop p hp0
      rfl
    · rw [List.mem_singleton] at hp1
      subst hp1
      rfl
  · decide




/-- C2 witness: the scenario run succeeds and `c2_payload_time` applies to
it, so each of its payloads has time 1577836800. -/
theorem c2_witness :
    (processOrder "tok" "u" exNameOracle exProductOracle []
        { item_names? := none, brands? := none, items? := none } exOrder
      = Except.ok (exRunState, exRunPayloads)) ∧
    ∀ p ∈ exRunPayloads, p.time = create_timestamp exOrder :=
  ⟨rfl,
    c2_payload_time.1 "tok" "u" exNameOracle exProductOracle []
      { item_names? := none, brands? := none, items? := none } exOrder exRunState
      exRunPayloads rfl⟩

/-- C1 (amended): `create_product_properties` returns the record of the LAST
line item -- event_id, value, ProductID, SKU, ProductName, Quantity and
ProductBrand are all taken from the final line item, while ProductURL,
ImageURL and ProductCategories are the call's arguments. In the driver, each
per-item product-event's properties is such a record, so its item-derived
fields come from the final line item; but its ProductURL and ImageURL come
from the current line item's product detail, so the emitted records need not
be one single identical record. -/
theorem c1_last_item_properties :
    (∀ (o : Order) (u : String) (i : Option String) (cats : List String)
        (pp : ProductProperties),
        create_product_properties o u i cats = some pp →
        ∃ last, o.line_items.getLast? = some last ∧
          pp.event_id = last.id ∧ pp.value = last.price ∧ pp.ProductID = last.product_id ∧
          pp.SKU = last.sku ∧ pp.ProductName = last.name ∧ pp.Quantity = last.quantity ∧
          pp.ProductBrand = last.vendor ∧ pp.ProductURL = u ∧ pp.ImageURL = i ∧
          pp.ProductCategories = cats) ∧
    (∀ (c u : String) (f : Int → Option String) (g : Int → ItemInfo) (cols : List Collect)
        (st : SyncState) (o : Order) (st' : SyncState) (ps : List Payload),
        processOrder c u f g cols st o = Except.ok (st', ps) →
        ∀ p ∈ ps, p.event = "Ordered Product" →
        ∃ last item pp, o.line_items.getLast? = some last ∧ item ∈ o.line_items ∧
          p.properties = PayloadProps.product pp ∧
          pp.event_id = last.id ∧ pp.value = last.price ∧ pp.ProductID = last.product_id ∧
          pp.SKU = last.sku ∧ pp.ProductName = last.name ∧ pp.Quantity = last.quantity ∧
          pp.ProductBrand = last.vendor ∧
          pp.ProductURL = create_product_url u (g item.product_id) ∧
          pp.ImageURL = create_image_url (g item.product_id)) := by
  have base :
      ∀ (o : Order) (u : String) (i : Option String) (cats : List String)
        (pp : ProductProperties),
        create_product_properties o u i cats = some pp →
        ∃ last, o.line_items.getLast? = some last ∧
          pp.event_id = last.id ∧ pp.value = last.price ∧ pp.ProductID = last.product_id ∧
          pp.SKU = last.sku ∧ pp.ProductName = last.name ∧ pp.Quantity = last.quantity ∧
          pp.ProductBrand = last.vendor ∧ pp.ProductURL = u ∧ pp.ImageURL = i ∧
          pp.ProductCategories = cats := by
    intro o u i cats pp h
    obtain ⟨last, hlast, hpp⟩ := create_product_properties_some_inv o u i cats pp h
    subst hpp
    exact ⟨last, hlast, rfl, rfl, rfl, rfl, rfl, rfl, rfl, rfl, rfl, rfl⟩
  refine ⟨base, ?_⟩
  intro c u f g cols st o st' ps h p hp he
  obtain ⟨ps0, op, hloop, hps⟩ := processOrder_shape c u f g cols st o st' ps h
  subst hps
  rcases List.mem_append.mp hp with hp0 | hp1
  · obtain ⟨item, hitem, pp, hpp, rfl⟩ :=
      itemLoop_mem c u g o _ _ _ o.line_items _ _ _ hloop p hp0
    obtain ⟨last, hlast, f1, f2, f3, f4, f5, f6, f7, f8, f9, -⟩ := base o _ _ _ pp hpp
    exact ⟨last, item, pp, hlast, hitem, rfl, f1, f2, f3, f4, f5, f6, f7, f8, f9⟩
  · rw [List.mem_singleton] at hp1
    subst hp1
    simp [create_order_payload] at he





/-- C1 counterexample: on a two-line-item order the two per-item
`Ordered Product` emissions carry two different properties records (their
ProductURL/ImageURL come from different product details), refuting the
claim that one single record is passed for every per-item emission. -/
theorem c1_counterexample :
    twoRunPayloads.length = 3 ∧
    twoRunPayloads.map Payload.event
      = ["Ordered Product", "Ordered Product", "Placed Order"] ∧
    (twoRunPayloads.get? 0).map Payload.properties
      ≠ (twoRunPayloads.get? 1).map Payload.properties := by
  refine ⟨rfl, rfl, by decide⟩

/-- C1 witness: `c1_last_item_properties` applied to the concrete
`create_product_properties` call on `twoOrder` and to the concrete run
`twoRun`, discharging both hypotheses. -/
theorem c1_witness :
    (create_product_properties twoOrder "u" none [] = some twoPP) ∧
    (∃ last, twoOrder.line_items.getLast? = some last ∧ twoPP.event_id = last.id ∧
      twoPP.ProductBrand = last.vendor) ∧
    (processOrder "tok" "https://s" exNameOracle exProductOracle []
        { item_names? := none, brands? := none, items? := none } twoOrder
      = Except.ok (twoRunState, twoRunPayloads)) ∧
    (∀ p ∈ twoRunPayloads, p.event = "Ordered Product" →
      ∃ last item pp, twoOrder.line_items.getLast? = some last ∧
        item ∈ twoOrder.line_items ∧ p.properties = PayloadProps.product pp ∧
        pp.event_id = last.id) := by
  refine ⟨by decide, ?_, rfl, ?_⟩
  · obtain ⟨last, h1, h2, -, -, -, -, -, h8, -⟩ :=
      c1_last_item_properties.1 twoOrder "u" none [] twoPP (by decide)
    exact ⟨last, h1, h2, h8⟩
  · intro p hp he
    obtain ⟨last, item, pp, h1, h2, h3, h4, -⟩ :=
      c1_last_item_properties.2 "tok" "https://s" exNameOracle exProductOracle []
        { item_names? := none, brands? := none, items? := none } twoOrder twoRunState
        twoRunPayloads rfl p hp he
    exact ⟨last, item, pp, h1, h2, h3, h4⟩

/-- C10 (amended): with an empty `line_items` list,
`create_product_properties` raises (`UnboundLocalError`, its result variable
is never bound) instead of returning a record; and per-order processing
fails with a `NameError` before the order-event is assembled when no
earlier order of the run has bound `item_names`/`brands`/`items` -- but
when a preceding order did bind them, the stale values are reused and the
empty order's order-event IS emitted (see the counterexample). -/
theorem c10_empty_line_items :
    (∀ (o : Order) (u : String) (i : Option String) (cats : List String),
        o.line_items = [] → create_product_properties o u i cats = none) ∧
    (∀ (c u : String) (f : Int → Option String) (g : Int → ItemInfo) (cols : List Collect)
        (o : Order), o.line_items = [] →
        processOrder c u f g cols { item_names? := none, brands? := none, items? := none } o
          = Except.error "NameError") := by
  constructor
  · intro o u i cats h
    exact create_product_properties_nil o h u i cats
  · intro c u f g cols o h
    simp [processOrder, itemLoop, h]

/-- C10 witness: both parts of `c10_empty_line_items` applied to the
concrete empty-line-items order. -/
theorem c10_witness :
    emptyOrder.line_items = [] ∧
    create_product_properties emptyOrder "u" none [] = none ∧
    processOrder "tok" "u" exNameOracle exProductOracle []
        { item_names? := none, brands? := none, items? := none } emptyOrder
      = Except.error "NameError" :=
  ⟨rfl, c10_empty_line_items.1 emptyOrder "u" none [] rfl,
    c10_empty_line_items.2 "tok" "u" exNameOracle exProductOracle [] emptyOrder rfl⟩





/-- C10 counterexample: in a run where an order with line items precedes the
empty order, the empty order's processing does NOT fail -- its
`Placed Order` event is assembled from the stale loop variables of the
previous order (ItemNames `[Widget]` despite the order having no line
items) and the run completes. -/
theorem c10_counterexample :
    staleRun = Except.ok staleRunPayloads ∧
    staleRunPayloads.map Payload.event
      = ["Ordered Product", "Placed Order", "Placed Order"] ∧
    (staleRunPayloads.get? 2).bind orderEventIdOf = some 2 ∧
    (staleRunPayloads.get? 2).bind orderItemNamesOf = some ["Widget"] ∧
    emptyOrder.line_items = [] := by
  exact ⟨rfl, rfl, rfl, rfl, rfl⟩

/-! The lru-cache development for the caching claim. -/


lemma newFirsts_congr : ∀ (ks s1 s2 : List Int), (∀ x, x ∈ s1 ↔ x ∈ s2) →
    newFirsts ks s1 = newFirsts ks s2 := by
  intro ks
  induction ks with
  | nil => intro s1 s2 h; rfl
  | cons k rest ih =>
    intro s1 s2 h
    by_cases hk : k ∈ s1
    · simp only [newFirsts, if_pos hk, if_pos ((h k).mp hk)]
      exact ih s1 s2 h
    · simp only [newFirsts, if_neg hk, if_neg (fun hc => hk ((h k).mpr hc))]
      refine congrArg (k :: ·) (ih _ _ ?_)
      intro x
      simp only [List.mem_cons]
      exact or_congr Iff.rfl (h x)

lemma newFirsts_nodup_notmem : ∀ ks seen : List Int,
    (newFirsts ks seen).Nodup ∧ ∀ x ∈ newFirsts ks seen, x ∉ seen := by
  intro ks
  induction ks with
  | nil => intro seen; exact ⟨List.nodup_nil, by simp [newFirsts]⟩
  | cons k rest ih =>
    intro seen
    by_cases hk : k ∈ seen
    · simp only [newFirsts, if_pos hk]
      exact ih seen
    · simp only [newFirsts, if_neg hk]
      obtain ⟨h1, h2⟩ := ih (k :: seen)
      refine ⟨List.nodup_cons.mpr ⟨fun hc => (h2 k hc) (List.mem_cons_self k seen), h1⟩, ?_⟩
      intro x hx
      rcases List.mem_cons.mp hx with rfl | hx'
      · exact hk
      · exact fun hc => (h2 x hx') (List.mem_cons_of_mem k hc)

/-- As long as the distinct keys seen so far fit in the capacity, an
lru-cached run fetches exactly the first occurrences of keys not already
cached, and every call returns the oracle's value for its key. -/
lemma lruRun_cached {α : Type} (cap : Nat) (oracle : Int → α) :
    ∀ (ks : List Int) (cache : List (Int × α)),
      (∀ p ∈ cache, p.2 = oracle p.1) →
      (cache.map Prod.fst).Nodup →
      cache.length + (newFirsts ks (cache.map Prod.fst)).length ≤ cap →
      (lruRun cap oracle cache ks).2.1 = newFirsts ks (cache.map Prod.fst) ∧
      (lruRun cap oracle cache ks).2.2 = ks.map oracle := by
  intro ks
  induction ks with
  | nil =>
    intro cache hv hn hcap
    exact ⟨rfl, rfl⟩
  | cons k rest ih =>
    intro cache hv hn hcap
    cases hfind : cache.find? (fun p => p.1 == k) with
    | some q =>
      have hq_mem : q ∈ cache := List.mem_of_find?_eq_some hfind
      have hq_key : q.1 = k := by simpa using List.find?_some hfind
      have hk_mem : k ∈ cache.map Prod.fst :=
        hq_key ▸ List.mem_map_of_mem Prod.fst hq_mem
      have hv' : ∀ p ∈ (k, q.2) :: cache.filter (fun p => p.1 != k), p.2 = oracle p.1 := by
        intro p hp
        rcases List.mem_cons.mp hp with rfl | hp'
        · simpa using hq_key ▸ hv q hq_mem
        · exact hv p (List.mem_filter.mp hp').1
      have hsub : ((cache.filter (fun p => p.1 != k)).map Prod.fst).Sublist
          (cache.map Prod.fst) := (List.filter_sublist cache).map Prod.fst
      have hn' : (((k, q.2) :: cache.filter (fun p => p.1 != k)).map Prod.fst).Nodup := by
        rw [List.map_cons, List.nodup_cons]
        refine ⟨?_, hn.sublist hsub⟩
        intro hc
        obtain ⟨p, hp, hpk⟩ := List.mem_map.mp hc
        have := (List.mem_filter.mp hp).2
        simp only [bne_iff_ne, ne_eq, decide_eq_true_eq] at this
        exact this hpk
      have hmemiff : ∀ x,
          x ∈ (((k, q.2) :: cache.filter (fun p => p.1 != k)).map Prod.fst)
            ↔ x ∈ cache.map Prod.fst := by
        intro x
        constructor
        · intro hx
          rcases List.mem_cons.mp hx with rfl | hx'
          · exact hk_mem
          · obtain ⟨p, hp, rfl⟩ := List.mem_map.mp hx'
            exact List.mem_map_of_mem Prod.fst (List.mem_filter.mp hp).1
        · intro hx
          by_cases hxk : x = k
          · subst hxk
            exact List.mem_cons_self _ _
          · obtain ⟨p, hp, rfl⟩ := List.mem_map.mp hx
            refine List.mem_cons_of_mem _ (List.mem_map_of_mem Prod.fst ?_)
            refine List.mem_filter.mpr ⟨hp, ?_⟩
            simpa using hxk
      have hflt : (cache.filter (fun p => p.1 != k)).length < cache.length := by
        refine List.length_filter_lt_length_iff_exists.mpr ⟨q, hq_mem, ?_⟩
        simp [hq_key]
      have hnf_eq : newFirsts rest
            ((((k, q.2) :: cache.filter (fun p => p.1 != k))).map Prod.fst)
          = newFirsts rest (cache.map Prod.fst) := newFirsts_congr _ _ _ hmemiff
      have hnf_cons : newFirsts (k :: rest) (cache.map Prod.fst)
          = newFirsts rest (cache.map Prod.fst) := by
        simp only [newFirsts, if_pos hk_mem]
      have hcap' : ((k, q.2) :: cache.filter (fun p => p.1 != k)).length
          + (newFirsts rest
              ((((k, q.2) :: cache.filter (fun p => p.1 != k))).map Prod.fst)).length
          ≤ cap := by
        rw [hnf_eq]
        rw [hnf_cons] at hcap
        simp only [List.length_cons]
        omega
      obtain ⟨ih1, ih2⟩ := ih ((k, q.2) :: cache.filter (fun p => p.1 != k)) hv' hn' hcap'
      constructor
      · simp only [lruRun, lruGet, hfind]
        rw [ih1, hnf_eq, hnf_cons]
        simp
      · simp only [lruRun, lruGet, hfind]
        rw [ih2]
        have : q.2 = oracle k := by simpa using hq_key ▸ hv q hq_mem
        simp [this]
    | none =>
      have hk_not : k ∉ cache.map Prod.fst := by
        intro hc
        obtain ⟨p, hp, rfl⟩ := List.mem_map.mp hc
        have := List.find?_eq_none.mp hfind p hp
        simp at this
      have hnf_cons : newFirsts (k :: rest) (cache.map Prod.fst)
          = k :: newFirsts rest (k :: cache.map Prod.fst) := by
        simp only [newFirsts, if_neg hk_not]
      have hlen : cache.length + 1 ≤ cap := by
        rw [hnf_cons] at hcap
        simp only [List.length_cons] at hcap
        omega
      have htake : ((k, oracle k) :: cache).take cap = (k, oracle k) :: cache := by
        apply List.take_of_length_le
        simpa using hlen
      have hv' : ∀ p ∈ (k, oracle k) :: cache, p.2 = oracle p.1 := by
        intro p hp
        rcases List.mem_cons.mp hp with rfl | hp'
        · rfl
        · exact hv p hp'
      have hn' : (((k, oracle k) :: cache).map Prod.fst).Nodup := by
        rw [List.map_cons, List.nodup_cons]
        exact ⟨hk_not, hn⟩
      have hcap' : ((k, oracle k) :: cache).length
          + (newFirsts rest (((k, oracle k) :: cache).map Prod.fst)).length ≤ cap := by
        rw [hnf_cons] at hcap
        simp only [List.length_cons, List.map_cons] at hcap ⊢
        omega
      obtain ⟨ih1, ih2⟩ := ih ((k, oracle k) :: cache) hv' hn' hcap'
      constructor
      · simp only [lruRun, lruGet, hfind, htake]
        rw [ih1, hnf_cons]
        simp
      · simp only [lruRun, lruGet, hfind, htake]
        rw [ih2]
        simp

lemma collection_name_run_eq (f : Int → Option String) :
    ∀ (ks : List Int) (cache : List (Int × Option String)),
      collection_name_run f cache ks = lruRun 512 f cache ks := by
  intro ks
  induction ks with
  | nil => intro cache; rfl
  | cons k rest ih =>
    intro cache
    simp only [collection_name_run, lruRun, get_collection_name, ih]

lemma product_run_eq (g : Int → ItemInfo) :
    ∀ (ks : List Int) (cache : List (Int × ItemInfo)),
      product_run g cache ks = lruRun 512 g cache ks := by
  intro ks
  induction ks with
  | nil => intro cache; rfl
  | cons k rest ih =>
    intro cache
    simp only [product_run, lruRun, get_product, ih]

/-- C5 (amended): provided the run touches at most 512 distinct keys (the
`lru_cache` capacity), each of `get_collection_name` and `get_product`
performs the external fetch at most once per distinct key -- exactly at
each key's first occurrence -- and every call returns the fetched value for
its key (this holds for any oracle, in particular when the fetched value is
empty/absent: the absence is cached like any value and never retried). -/
theorem c5_fetch_at_most_once :
    (∀ (fetch_title : Int → Option String) (ks : List Int),
        (newFirsts ks []).length ≤ 512 →
        (collection_name_run fetch_title [] ks).2.1 = newFirsts ks [] ∧
        (collection_name_run fetch_title [] ks).2.1.Nodup ∧
        (collection_name_run fetch_title [] ks).2.2 = ks.map fetch_title) ∧
    (∀ (fetch_product : Int → ItemInfo) (ks : List Int),
        (newFirsts ks []).length ≤ 512 →
        (product_run fetch_product [] ks).2.1 = newFirsts ks [] ∧
        (product_run fetch_product [] ks).2.1.Nodup ∧
        (product_run fetch_product [] ks).2.2 = ks.map fetch_product) := by
  constructor
  · intro f ks hcap
    rw [collection_name_run_eq]
    obtain ⟨h1, h2⟩ := lruRun_cached 512 f ks [] (by simp) List.nodup_nil (by simpa using hcap)
    refine ⟨by simpa using h1, ?_, by simpa using h2⟩
    rw [show (([] : List (Int × Option String)).map Prod.fst) = [] from rfl] at h1
    rw [h1]
    exact (newFirsts_nodup_notmem ks []).1
  · intro g ks hcap
    rw [product_run_eq]
    obtain ⟨h1, h2⟩ := lruRun_cached 512 g ks [] (by simp) List.nodup_nil (by simpa using hcap)
    refine ⟨by simpa using h1, ?_, by simpa using h2⟩
    rw [show (([] : List (Int × ItemInfo)).map Prod.fst) = [] from rfl] at h1
    rw [h1]
    exact (newFirsts_nodup_notmem ks []).1

/-- C5 witness: a run that asks for collection 5, then 7, then 5 again (and
likewise for products) satisfies the capacity hypothesis and fetches each
key once, at its first occurrence. -/
theorem c5_witness :
    ((newFirsts [5, 7, 5] []).length ≤ 512) ∧
    ((collection_name_run exNameOracle [] [5, 7, 5]).2.1 = newFirsts [5, 7, 5] []) ∧
    ((collection_name_run exNameOracle [] [5, 7, 5]).2.1.Nodup) ∧
    ((collection_name_run exNameOracle [] [5, 7, 5]).2.2 = [5, 7, 5].map exNameOracle) ∧
    ((product_run exProductOracle [] [5, 7, 5]).2.1 = newFirsts [5, 7, 5] []) ∧
    ((product_run exProductOracle [] [5, 7, 5]).2.2
      = [5, 7, 5].map exProductOracle) := by
  obtain ⟨ha, hb, hc⟩ := c5_fetch_at_most_once.1 exNameOracle [5, 7, 5] (by decide)
  obtain ⟨hd, -, hf⟩ := c5_fetch_at_most_once.2 exProductOracle [5, 7, 5] (by decide)
  exact ⟨by decide, ha, hb, hc, hd, hf⟩

lemma take_append_take {β : Type} (l m : List β) (n : Nat) :
    (l ++ m.take n).take n = (l ++ m).take n := by
  rw [List.take_append_eq_append_take, List.take_append_eq_append_take, List.take_take,
    inf_eq_left.mpr (Nat.sub_le n l.length)]

lemma lruRun_append {α : Type} (cap : Nat) (oracle : Int → α) (l1 l2 : List Int) :
    ∀ cache : List (Int × α),
      lruRun cap oracle cache (l1 ++ l2)
        = ((lruRun cap oracle (lruRun cap oracle cache l1).1 l2).1,
           (lruRun cap oracle cache l1).2.1
             ++ (lruRun cap oracle (lruRun cap oracle cache l1).1 l2).2.1,
           (lruRun cap oracle cache l1).2.2
             ++ (lruRun cap oracle (lruRun cap oracle cache l1).1 l2).2.2) := by
  induction l1 with
  | nil => intro cache; simp [lruRun]
  | cons k rest ih =>
    intro cache
    simp only [List.cons_append, lruRun, ih]
    simp [ih, List.append_assoc]

/-- A run over pairwise-distinct keys none of which is cached misses on
every call: it fetches exactly the given keys, and the final cache is the
most-recent-first key/value list truncated to the capacity. -/
lemma lruRun_fresh {α : Type} (cap : Nat) (oracle : Int → α) :
    ∀ (ks : List Int) (cache : List (Int × α)),
      ks.Nodup → (∀ k ∈ ks, k ∉ cache.map Prod.fst) → cache.length ≤ cap →
      (lruRun cap oracle cache ks).2.1 = ks ∧
      (lruRun cap oracle cache ks).1
        = ((ks.map (fun k => (k, oracle k))).reverse ++ cache).take cap := by
  intro ks
  induction ks with
  | nil =>
    intro cache hnd hfresh hlen
    exact ⟨rfl, by simp [lruRun, List.take_of_length_le hlen]⟩
  | cons k rest ih =>
    intro cache hnd hfresh hlen
    have hk_not : k ∉ cache.map Prod.fst := hfresh k (List.mem_cons_self k rest)
    have hfind : cache.find? (fun p => p.1 == k) = none := by
      rw [List.find?_eq_none]
      intro p hp
      simp only [beq_iff_eq]
      intro hc
      exact hk_not (hc ▸ List.mem_map_of_mem Prod.fst hp)
    obtain ⟨hk_rest, hrest_nd⟩ := List.nodup_cons.mp hnd
    have hfresh' : ∀ k' ∈ rest, k' ∉ (((k, oracle k) :: cache).take cap).map Prod.fst := by
      intro k' hk' hc
      rw [List.map_take] at hc
      have hc2 : k' ∈ ((k, oracle k) :: cache).map Prod.fst :=
        (List.take_sublist cap _).subset hc
      rcases List.mem_cons.mp hc2 with rfl | hc3
      · exact hk_rest hk'
      · exact hfresh k' (List.mem_cons_of_mem k hk') hc3
    have hlen' : (((k, oracle k) :: cache).take cap).length ≤ cap := by
      rw [List.length_take]
      exact inf_le_left
    obtain ⟨ih1, ih2⟩ := ih (((k, oracle k) :: cache).take cap) hrest_nd hfresh' hlen'
    constructor
    · simp only [lruRun, lruGet, hfind]
      rw [ih1]
      simp
    · simp only [lruRun, lruGet, hfind]
      rw [ih2, take_append_take, List.map_cons, List.reverse_cons, List.append_assoc,
        List.singleton_append]



lemma cexKeys_part1_nodup : ((List.range 513).map Int.ofNat).Nodup :=
  (List.nodup_range 513).map (fun a b => Int.ofNat_inj.mp)

lemma cex_final_keys :
    ((lruRun 512 cexOracle [] ((List.range 513).map Int.ofNat)).1).map Prod.fst
      = ((List.range 512).map Nat.succ).reverse.map Int.ofNat := by
  obtain ⟨-, h2⟩ := lruRun_fresh 512 cexOracle ((List.range 513).map Int.ofNat) []
    cexKeys_part1_nodup (by simp) (by simp)
  rw [h2, List.append_nil, List.map_take, List.map_reverse, List.map_map]
  have hfst : (Prod.fst ∘ fun k : Int => (k, cexOracle k)) = id := rfl
  rw [hfst, List.map_id]
  rw [show (513 : Nat) = 512 + 1 from rfl, List.range_succ_eq_map]
  rw [List.map_cons, List.reverse_cons]
  have hlen : ((List.map Int.ofNat ((List.range 512).map Nat.succ)).reverse).length = 512 := by
    simp only [List.length_reverse, List.length_map, List.length_range]
  rw [List.take_left' hlen, List.map_reverse]

lemma cex_zero_not_in_final :
    (0 : Int) ∉ ((lruRun 512 cexOracle [] ((List.range 513).map Int.ofNat)).1).map Prod.fst := by
  rw [cex_final_keys]
  intro h
  rw [List.mem_map] at h
  obtain ⟨a, ha, hc⟩ := h
  rw [List.mem_reverse, List.mem_map] at ha
  obtain ⟨b, -, rfl⟩ := ha
  exact absurd (Int.ofNat_inj.mp hc) (Nat.succ_ne_zero b)

lemma lruRun_single_miss {α : Type} (cap : Nat) (oracle : Int → α)
    (cache : List (Int × α)) (k : Int)
    (h : cache.find? (fun p => p.1 == k) = none) :
    (lruRun cap oracle cache [k]).2.1 = [k] := by
  simp [lruRun, lruGet, h]

/-- C5 counterexample: with 513 distinct collection ids followed by the
first id again, the 512-entry lru cache has evicted that id, so it is
fetched a second time -- the claim's unconditional at-most-one fetch per
key fails on runs touching more than 512 distinct keys. -/
theorem c5_counterexample :
    (collection_name_run cexOracle [] cexKeys).2.1.count 0 = 2 ∧
    ¬ (collection_name_run cexOracle [] cexKeys).2.1.Nodup := by
  have hrun : (collection_name_run cexOracle [] cexKeys).2.1
      = ((List.range 513).map Int.ofNat) ++ [0] := by
    rw [collection_name_run_eq, cexKeys, lruRun_append]
    obtain ⟨h1, -⟩ := lruRun_fresh 512 cexOracle ((List.range 513).map Int.ofNat) []
      cexKeys_part1_nodup (by simp) (by simp)
    have hfind0 : ((lruRun 512 cexOracle [] ((List.range 513).map Int.ofNat)).1).find?
        (fun p => p.1 == 0) = none := by
      rw [List.find?_eq_none]
      intro p hp
      simp only [beq_iff_eq]
      intro hc
      exact cex_zero_not_in_final (hc ▸ List.mem_map_of_mem Prod.fst hp)
    have h2 := lruRun_single_miss 512 cexOracle
      ((lruRun 512 cexOracle [] ((List.range 513).map Int.ofNat)).1) 0 hfind0
    show (lruRun 512 cexOracle [] ((List.range 513).map Int.ofNat)).2.1
        ++ (lruRun 512 cexOracle
              (lruRun 512 cexOracle [] ((List.range 513).map Int.ofNat)).1 [0]).2.1
      = ((List.range 513).map Int.ofNat) ++ [0]
    rw [h1, h2]
  have hzero_mem : (0 : Int) ∈ (List.range 513).map Int.ofNat := by
    simp only [List.mem_map]
    exact ⟨0, by simp, rfl⟩
  have hcount : (collection_name_run cexOracle [] cexKeys).2.1.count 0 = 2 := by
    rw [hrun, List.count_append,
      List.count_eq_one_of_mem cexKeys_part1_nodup hzero_mem]
    rfl
  refine ⟨hcount, fun hnd => ?_⟩
  have := List.nodup_iff_count_le_one.mp hnd 0
  omega

end Shopify
